import Mathlib

/-!
Verification of the village parcel-delivery simulation (`src/index.js`).

The JavaScript source is shallowly embedded below:
* locations are `String`s; a JS value that may be a string or `undefined`
  is `Option String` (`none` = `undefined`);
* the adjacency object built by `buildGraph` (created with
  `Object.create(null)`, keys in insertion order) is an association list
  `List (String × List (Option String))`;
* code that can throw (`undefined` property access) returns `Option`,
  `none` standing for the thrown `TypeError`;
* the ambient `Math.random()` draw consumed by `randomPick` is made
  explicit as a rational parameter in `[0, 1)`.
-/

/-- A graph object: association list from location name to its neighbor
array, in key-insertion order, mirroring the plain JS object returned by
`buildGraph`.  Neighbor entries are `Option String` because a malformed
edge descriptor can push the JS value `undefined` into a neighbor array. -/
abbrev Graph := List (String × List (Option String))

/-- Embeds JS property-key coercion `String(v)` for the values that occur
here: a string is its own key, and `undefined` is coerced to the key
`"undefined"` (as in `graph[undefined]`). -/
def jsKey : Option String → String
  | some s => s
  | none => "undefined"

/-- Splits a character list at every occurrence of `sep`, matching the
behaviour of JS `String.prototype.split` with a one-character separator
(`"".split("-")` gives `[""]`, adjacent separators give empty pieces). -/
def splitChar (sep : Char) : List Char → List (List Char)
  | [] => [[]]
  | c :: cs =>
    let rest := splitChar sep cs
    if c = sep then [] :: rest
    else
      match rest with
      | [] => [[c]]
      | piece :: pieces => (c :: piece) :: pieces

/-- Embeds `r.split("-")` from `buildGraph`. -/
def jsSplit (s : String) : List String :=
  (splitChar '-' s.data).map String.mk

/-- Embeds the property read `graph[key]`: `none` is JS `undefined`
(no such key). -/
def lookupGraph : Graph → String → Option (List (Option String))
  | [], _ => none
  | (k, ns) :: rest, key => if k = key then some ns else lookupGraph rest key

/-- Embeds the inner `addEdge(from, to)` of `buildGraph`: if
`graph[from] == null` a fresh one-element array is installed, otherwise
`to` is pushed onto the existing array.  The first argument is used as a
property key (hence coerced by `jsKey`), the second is stored raw. -/
def addEdge : Graph → Option String → Option String → Graph
  | [], frm, dst => [(jsKey frm, [dst])]
  | (k, ns) :: rest, frm, dst =>
    if k = jsKey frm then (k, ns ++ [dst]) :: rest
    else (k, ns) :: addEdge rest frm dst

/-- Embeds one iteration of the `for` loop of `buildGraph`: destructure
`let [from, to] = r.split("-")` (a missing component is `undefined`, extra
components are dropped) and perform `addEdge(from, to); addEdge(to, from)`. -/
def buildStep (g : Graph) (e : String) : Graph :=
  let parts := jsSplit e
  addEdge (addEdge g (parts.get? 0) (parts.get? 1)) (parts.get? 1) (parts.get? 0)

/-- Embeds `buildGraph(edges)` from the source. -/
def buildGraph (edges : List String) : Graph :=
  edges.foldl buildStep []

/-- The `roads` constant of the source. -/
def roads : List String :=
  ["Alice's House-Bob's House",   "Alice's House-Cabin",
   "Alice's House-Post Office",   "Bob's House-Town Hall",
   "Daria's House-Ernie's House", "Daria's House-Town Hall",
   "Ernie's House-Grete's House", "Grete's House-Farm",
   "Grete's House-Shop",          "Marketplace-Farm",
   "Marketplace-Post Office",     "Marketplace-Shop",
   "Marketplace-Town Hall",       "Shop-Town Hall"]

/-- The global `roadGraph = buildGraph(roads)`. -/
def roadGraph : Graph := buildGraph roads

/-- A parcel `{place, address}`. -/
structure Parcel where
  place : String
  address : String
deriving DecidableEq

/-- The `VillageState` class: current location plus outstanding parcels. -/
structure VillageState where
  place : String
  parcels : List Parcel
deriving DecidableEq

/-- Embeds `VillageState.prototype.move(destination)`.  The JS method
closes over the global `roadGraph`; the closure environment is made
explicit as the `g` parameter.  `roadGraph[this.place]` is `undefined`
when `this.place` has no entry, in which case `.includes` throws a
`TypeError` — modeled as `none`.  Otherwise, an illegal destination
returns `this` unchanged, and a legal one maps every parcel at
`this.place` to `destination` and filters out delivered parcels. -/
def VillageState.move (g : Graph) (s : VillageState) (destination : String) :
    Option VillageState :=
  match lookupGraph g s.place with
  | none => none
  | some neighbors =>
    if (some destination) ∈ neighbors then
      some ⟨destination,
        (s.parcels.map (fun p =>
          if p.place ≠ s.place then p
          else { place := destination, address := p.address })).filter
          (fun p => p.place != p.address)⟩
    else
      some s

/-- The `first` example state of the source. -/
def first : VillageState :=
  ⟨"Post Office", [⟨"Post Office", "Alice's House"⟩]⟩

/-- An action object `{direction, memory}` returned by a robot strategy. -/
structure RobotAction (μ : Type) where
  direction : String
  memory : μ

/-- Embeds the loop body of `runRobot(state, robot, memory)`.  The JS loop
`for (let turn = 0;; turn++)` has no bound, so the embedding takes a fuel
argument: `none` means the run neither terminated nor crashed within
`fuel` iterations (or a `move` threw, which also yields `none`).  On
termination the result is the reported turn count together with the list
of `Moved to ...` trace events, one per completed iteration. -/
def runRobotAux {μ : Type} (robot : VillageState → μ → RobotAction μ) :
    Nat → VillageState → μ → Nat → Option (Nat × List String)
  | 0, _, _, _ => none
  | Nat.succ fuel, s, m, turn =>
    if s.parcels = [] then some (turn, [])
    else
      let a := robot s m
      match VillageState.move roadGraph s a.direction with
      | none => none
      | some s2 =>
        (runRobotAux robot fuel s2 a.memory (turn + 1)).map
          (fun r => (r.1, a.direction :: r.2))

/-- Embeds `runRobot(state, robot, memory)` with explicit fuel. -/
def runRobot {μ : Type} (fuel : Nat) (robot : VillageState → μ → RobotAction μ)
    (s : VillageState) (m : μ) : Option (Nat × List String) :=
  runRobotAux robot fuel s m 0

/-- Embeds `randomPick(array)`: `array[Math.floor(Math.random() * array.length)]`.
The ambient `Math.random()` draw is the explicit parameter `rand` (a
rational in `[0, 1)`; every double the JS call can produce is such a
rational).  An out-of-bounds index reads as JS `undefined` (`none`). -/
def randomPick (rand : ℚ) (array : List (Option String)) : Option String :=
  (array.get? (Int.floor (rand * (array.length : ℚ))).toNat).getD none

/-- Embeds `randomRobot(state)`: `{direction: randomPick(roadGraph[state.place])}`.
The outer `Option` is the crash case: when `state.place` has no entry,
`randomPick(undefined)` evaluates `undefined.length` and throws a
`TypeError` (`none`).  The inner `Option String` is the direction value
(`memory` is left `undefined` by the source and is not modeled). -/
def randomRobot (rand : ℚ) (s : VillageState) : Option (Option String) :=
  match lookupGraph roadGraph s.place with
  | none => none
  | some ns => some (randomPick rand ns)

/-- Observation: `b` occurs in the neighbor array of `a` (JS
`graph[a].includes(b)` when the entry exists, `false` when absent). -/
def hasNeighbor (g : Graph) (a : String) (b : Option String) : Bool :=
  match lookupGraph g a with
  | none => false
  | some ns => decide (b ∈ ns)

/-- Observation: how many times value `v` occurs in the neighbor array of
key `a` (zero when the key is absent). -/
def countNeighbor (g : Graph) (a : String) (v : Option String) : Nat :=
  ((lookupGraph g a).getD []).count v

/-- Observation: the number of occurrences of `v` that one `buildStep` on
descriptor `e` appends to the neighbor array of key `a` (the descriptor
contributes via `addEdge(from, to)` and via `addEdge(to, from)`). -/
def edgeContrib (a : String) (v : Option String) (e : String) : Nat :=
  (if a = jsKey ((jsSplit e).get? 0) ∧ v = (jsSplit e).get? 1 then 1 else 0) +
  (if a = jsKey ((jsSplit e).get? 1) ∧ v = (jsSplit e).get? 0 then 1 else 0)

/-- Observation: no parcel of the state is self-delivered
(`place == address`). -/
def goodState (s : VillageState) : Bool :=
  s.parcels.all (fun p => p.place != p.address)

/-- Reachability by `move` transitions: `ReachableState g s t` holds when
`t` arises from `s` by a finite sequence of successful `move` calls. -/
inductive ReachableState (g : Graph) : VillageState → VillageState → Prop where
  | refl : ∀ s, ReachableState g s s
  | step : ∀ s t u d, ReachableState g s t → VillageState.move g t d = some u →
      ReachableState g s u

/-- Follows the spec's words (§4.1, §7), for comparison with `buildGraph`:
a descriptor that does not split into exactly two components is fatal at
graph-build time, so construction fails (`none`) instead of returning a
graph. -/
def buildGraphSpec (edges : List String) : Option Graph :=
  if edges.all (fun e => (jsSplit e).length == 2) then some (buildGraph edges)
  else none

theorem lookupGraph_addEdge (g : Graph) (frm dst : Option String) (k : String) :
    lookupGraph (addEdge g frm dst) k =
      if k = jsKey frm then some (((lookupGraph g k).getD []) ++ [dst])
      else lookupGraph g k := by
  induction g with
  | nil =>
    by_cases h : k = jsKey frm
    · subst h; simp [addEdge, lookupGraph]
    · simp [addEdge, lookupGraph, h, Ne.symm h]
  | cons hd rest ih =>
    obtain ⟨k2, ns⟩ := hd
    by_cases h1 : k2 = jsKey frm
    · by_cases h2 : k2 = k
      · subst h2
        simp [addEdge, lookupGraph, h1]
      · have h3 : ¬(k = jsKey frm) := fun hh => h2 (h1.trans hh.symm)
        simp [addEdge, lookupGraph, h1, h2, h3, Ne.symm h3]
    · by_cases h2 : k2 = k
      · subst h2
        simp [addEdge, lookupGraph, h1]
      · simp [addEdge, lookupGraph, h1, h2, ih]

theorem countNeighbor_addEdge (g : Graph) (frm dst : Option String)
    (a : String) (v : Option String) :
    countNeighbor (addEdge g frm dst) a v =
      countNeighbor g a v + (if a = jsKey frm ∧ v = dst then 1 else 0) := by
  unfold countNeighbor
  rw [lookupGraph_addEdge]
  by_cases h : a = jsKey frm
  · rw [if_pos h]
    simp only [Option.getD_some, List.count_append]
    by_cases h2 : v = dst
    · subst h2; simp [h, List.count_singleton]
    · rw [if_neg (fun hh => h2 hh.2)]
      have hz : List.count v [dst] = 0 := by
        simp [List.count_cons, List.count_nil]
        exact fun hh => h2 hh.symm
      omega
  · rw [if_neg h, if_neg (fun hh => h hh.1)]
    omega

theorem countNeighbor_buildStep (g : Graph) (e : String)
    (a : String) (v : Option String) :
    countNeighbor (buildStep g e) a v = countNeighbor g a v + edgeContrib a v e := by
  unfold buildStep edgeContrib
  rw [countNeighbor_addEdge, countNeighbor_addEdge, add_assoc]

theorem countNeighbor_foldl (edges : List String) (g : Graph)
    (a : String) (v : Option String) :
    countNeighbor (List.foldl buildStep g edges) a v =
      countNeighbor g a v + (edges.map (edgeContrib a v)).sum := by
  induction edges generalizing g with
  | nil => simp
  | cons e rest ih =>
    simp only [List.foldl_cons, List.map_cons, List.sum_cons]
    rw [ih, countNeighbor_buildStep]
    omega

theorem countNeighbor_buildGraph (edges : List String)
    (a : String) (v : Option String) :
    countNeighbor (buildGraph edges) a v = (edges.map (edgeContrib a v)).sum := by
  unfold buildGraph
  rw [countNeighbor_foldl]
  simp [countNeighbor, lookupGraph]

theorem hasNeighbor_eq_true_iff (g : Graph) (a : String) (v : Option String) :
    hasNeighbor g a v = true ↔ 0 < countNeighbor g a v := by
  unfold hasNeighbor countNeighbor
  cases lookupGraph g a with
  | none => simp
  | some ns => simp [List.count_pos_iff]

theorem relocate_fun_eq (s : VillageState) (d : String) :
    (fun p : Parcel => if p.place ≠ s.place then p
        else { place := d, address := p.address })
      = (fun p : Parcel => if p.place = s.place
        then ({ place := d, address := p.address } : Parcel) else p) := by
  funext p
  by_cases hp : p.place = s.place <;> simp [hp]

theorem goodState_move (g : Graph) (t u : VillageState) (d : String)
    (hmv : VillageState.move g t d = some u) (ht : goodState t = true) :
    goodState u = true := by
  unfold VillageState.move at hmv
  cases hl : lookupGraph g t.place with
  | none => rw [hl] at hmv; cases hmv
  | some ns =>
    rw [hl] at hmv
    dsimp only at hmv
    by_cases hd : (some d) ∈ ns
    · rw [if_pos hd] at hmv
      injection hmv with h2
      subst h2
      unfold goodState
      simp only [List.all_eq_true]
      intro p hp
      exact (List.mem_filter.mp hp).2
    · rw [if_neg hd] at hmv
      injection hmv with h2
      subst h2
      exact ht

/-- C1: when the current place has a neighbor-list entry and the requested
destination is not in it, `move` is a no-op returning the original state
(not an error). -/
theorem move_illegal_is_noop (g : Graph) (s : VillageState) (d : String)
    (ns : List (Option String)) (h : lookupGraph g s.place = some ns)
    (hd : (some d) ∉ ns) :
    VillageState.move g s d = some s := by
  unfold VillageState.move
  rw [h]
  dsimp only
  rw [if_neg hd]

theorem move_illegal_is_noop_witness :
    VillageState.move roadGraph first "Cabin" = some first :=
  move_illegal_is_noop roadGraph first "Cabin"
    [some "Alice's House", some "Marketplace"] (by decide) (by decide)

/-- C2: a legal `move` returns the destination as the new place, and its
parcel list is obtained by first relocating every parcel at the old place
to the destination (others untouched), then dropping exactly the parcels
whose place equals their address; relocation precedes delivery-filtering. -/
theorem move_legal_relocates_then_delivers (g : Graph) (s : VillageState)
    (d : String) (ns : List (Option String))
    (h : lookupGraph g s.place = some ns) (hd : (some d) ∈ ns) :
    VillageState.move g s d =
      some ⟨d, (s.parcels.map (fun p =>
          if p.place = s.place then { place := d, address := p.address }
          else p)).filter (fun p => p.place != p.address)⟩ := by
  unfold VillageState.move
  rw [h]
  dsimp only
  rw [if_pos hd, relocate_fun_eq]

theorem move_legal_relocates_then_delivers_witness :
    VillageState.move roadGraph first "Alice's House" =
      some ⟨"Alice's House", (first.parcels.map (fun p =>
          if p.place = first.place
          then { place := "Alice's House", address := p.address }
          else p)).filter (fun p => p.place != p.address)⟩ :=
  move_legal_relocates_then_delivers roadGraph first "Alice's House"
    [some "Alice's House", some "Marketplace"] (by decide) (by decide)

/-- C10: a legal `move` preserves the relative order of the parcel
sequence: the new parcel list is a sublist of the pointwise-relocated
input list, so surviving parcels keep their original order and delivered
ones are deleted in place. -/
theorem move_preserves_order (g : Graph) (s : VillageState) (d : String)
    (ns : List (Option String)) (s2 : VillageState)
    (h : lookupGraph g s.place = some ns) (hd : (some d) ∈ ns)
    (hmv : VillageState.move g s d = some s2) :
    s2.place = d ∧
      List.Sublist s2.parcels (s.parcels.map (fun p =>
        if p.place = s.place then { place := d, address := p.address }
        else p)) := by
  unfold VillageState.move at hmv
  rw [h] at hmv
  dsimp only at hmv
  rw [if_pos hd] at hmv
  injection hmv with h2
  subst h2
  refine ⟨rfl, ?_⟩
  rw [← relocate_fun_eq]
  exact List.filter_sublist _

theorem move_preserves_order_witness :
    (VillageState.mk "Alice's House" []).place = "Alice's House" ∧
      List.Sublist (VillageState.mk "Alice's House" []).parcels
        (first.parcels.map (fun p =>
          if p.place = first.place
          then { place := "Alice's House", address := p.address }
          else p)) :=
  move_preserves_order roadGraph first "Alice's House"
    [some "Alice's House", some "Marketplace"] ⟨"Alice's House", []⟩
    (by decide) (by decide) (by decide)

/-- C3 counterexample: with the current place absent from the graph,
`move` does not return the original state as a safe no-op; the neighbor
lookup yields `undefined` and the `.includes` call throws (`none`). -/
theorem move_missing_place_cex :
    VillageState.move roadGraph ⟨"Nowhere", []⟩ "Post Office" = none ∧
      VillageState.move roadGraph ⟨"Nowhere", []⟩ "Post Office" ≠
        some ⟨"Nowhere", []⟩ := by
  decide

/-- C3 amended: when the current place has no entry in the graph, `move`
does not treat the missing neighbor list as empty; it propagates the
undefined lookup as a thrown `TypeError` (`none`) for every destination. -/
theorem move_missing_place_errors (g : Graph) (s : VillageState) (d : String)
    (h : lookupGraph g s.place = none) :
    VillageState.move g s d = none := by
  unfold VillageState.move
  rw [h]

theorem move_missing_place_errors_witness :
    VillageState.move roadGraph ⟨"Nowhere", []⟩ "Shop" = none :=
  move_missing_place_errors roadGraph ⟨"Nowhere", []⟩ "Shop" (by decide)

/-- C8: no state reachable by `move` transitions from an initial state
without self-delivered parcels ever contains a parcel whose place equals
its address. -/
theorem no_self_delivered_reachable (g : Graph) (s0 s : VillageState)
    (h0 : goodState s0 = true) (hr : ReachableState g s0 s) :
    goodState s = true := by
  induction hr with
  | refl => exact h0
  | step t u d ht hmv ih => exact goodState_move g t u d hmv ih

theorem no_self_delivered_reachable_witness :
    goodState ⟨"Alice's House", []⟩ = true :=
  no_self_delivered_reachable roadGraph first ⟨"Alice's House", []⟩ (by decide)
    (ReachableState.step first first ⟨"Alice's House", []⟩ "Alice's House"
      (ReachableState.refl first) (by decide))

/-- C4 counterexample: on the malformed descriptor `"A"` the spec-side
builder refuses to construct, but the source `buildGraph` silently returns
a fully built graph, filing an edge to the `undefined` value (and the
reverse edge under the coerced key `"undefined"`). -/
theorem buildGraph_no_failfast_cex :
    buildGraphSpec ["A"] = none ∧
      buildGraph ["A"] = [("A", [none]), ("undefined", [some "A"])] := by
  decide

/-- C4 amended: `buildGraph` never fails on a malformed descriptor.  A
one-component descriptor is processed anyway, yielding an edge to the
`undefined` value with the reverse direction filed under the key
`"undefined"`; a descriptor with more than two components contributes only
its first two components and silently drops the rest. -/
theorem buildGraph_malformed_total :
    (∀ e a, jsSplit e = [a] → a ≠ "undefined" →
      buildGraph [e] = [(a, [none]), ("undefined", [some a])]) ∧
    (∀ (g : Graph) e a b rest, jsSplit e = a :: b :: rest →
      buildStep g e = addEdge (addEdge g (some a) (some b)) (some b) (some a)) := by
  constructor
  · intro e a hs ha
    unfold buildGraph
    simp only [List.foldl_cons, List.foldl_nil, buildStep, hs]
    simp [addEdge, jsKey, ha]
  · intro g e a b rest hs
    unfold buildStep
    rw [hs]
    rfl

theorem buildGraph_malformed_total_witness :
    buildGraph ["A"] = [("A", [none]), ("undefined", [some "A"])] ∧
      buildStep [] "A-B-C" =
        addEdge (addEdge [] (some "A") (some "B")) (some "B") (some "A") :=
  ⟨buildGraph_malformed_total.1 "A" "A" (by decide) (by decide),
   buildGraph_malformed_total.2 [] "A-B-C" "A" "B" ["C"] (by decide)⟩

/-- C5: for every descriptor of the edge list that splits as `"A-B"`, the
built graph has `B` in the neighbor list of `A` and `A` in the neighbor
list of `B`. -/
theorem buildGraph_symmetric (edges : List String) (e : String) (a b : String)
    (he : e ∈ edges) (hs : jsSplit e = [a, b]) :
    hasNeighbor (buildGraph edges) a (some b) = true ∧
      hasNeighbor (buildGraph edges) b (some a) = true := by
  have key : ∀ (x : String) (v : Option String), 1 ≤ edgeContrib x v e →
      hasNeighbor (buildGraph edges) x v = true := by
    intro x v hc
    rw [hasNeighbor_eq_true_iff, countNeighbor_buildGraph]
    have hle : edgeContrib x v e ≤ (edges.map (edgeContrib x v)).sum :=
      List.single_le_sum (fun n _ => Nat.zero_le n) _
        (List.mem_map_of_mem (edgeContrib x v) he)
    omega
  constructor
  · apply key
    unfold edgeContrib
    rw [hs]
    simp [jsKey]
  · apply key
    unfold edgeContrib
    rw [hs]
    simp [jsKey]

theorem buildGraph_symmetric_witness :
    hasNeighbor (buildGraph ["A-B", "B-C"]) "A" (some "B") = true ∧
      hasNeighbor (buildGraph ["A-B", "B-C"]) "B" (some "A") = true :=
  buildGraph_symmetric ["A-B", "B-C"] "A-B" "A" "B" (by decide) (by decide)

theorem edgeContrib_wf (a b x y : String) (e : String)
    (hs : jsSplit e = [x, y]) :
    edgeContrib a (some b) e =
      (if jsSplit e = [a, b] then 1 else 0) +
        (if jsSplit e = [b, a] then 1 else 0) := by
  unfold edgeContrib
  rw [hs]
  have c1 : (a = jsKey (([x, y] : List String).get? 0) ∧
      (some b : Option String) = [x, y].get? 1) ↔
      (([x, y] : List String) = [a, b]) := by
    simp [jsKey]
    constructor
    · rintro ⟨rfl, rfl⟩
      exact ⟨rfl, rfl⟩
    · rintro ⟨rfl, rfl⟩
      exact ⟨rfl, rfl⟩
  have c2 : (a = jsKey (([x, y] : List String).get? 1) ∧
      (some b : Option String) = [x, y].get? 0) ↔
      (([x, y] : List String) = [b, a]) := by
    simp [jsKey]
    constructor
    · rintro ⟨rfl, rfl⟩
      exact ⟨rfl, rfl⟩
    · rintro ⟨rfl, rfl⟩
      exact ⟨rfl, rfl⟩
  rw [if_congr c1 rfl rfl, if_congr c2 rfl rfl]

theorem sum_edgeContrib (a b : String) (edges : List String)
    (hwf : ∀ e ∈ edges, ∃ x y, jsSplit e = [x, y]) :
    (edges.map (edgeContrib a (some b))).sum =
      edges.countP (fun e => decide (jsSplit e = [a, b])) +
        edges.countP (fun e => decide (jsSplit e = [b, a])) := by
  induction edges with
  | nil => simp
  | cons e rest ih =>
    obtain ⟨x, y, hs⟩ := hwf e (List.mem_cons_self e rest)
    have hrest : ∀ e2 ∈ rest, ∃ x y, jsSplit e2 = [x, y] :=
      fun e2 he2 => hwf e2 (List.mem_cons_of_mem e he2)
    simp only [List.map_cons, List.sum_cons, List.countP_cons]
    rw [edgeContrib_wf a b x y e hs, ih hrest]
    simp only [decide_eq_true_eq]
    omega

/-- C9: in a well-formed edge list, if the pair `A`,`B` occurs in `k`
descriptors (in either orientation), then `B` occurs exactly `k` times in
the neighbor list of `A` and vice versa: duplicate edges yield duplicate
neighbor entries, the builder does not deduplicate. -/
theorem buildGraph_duplicates (edges : List String) (a b : String)
    (hwf : ∀ e ∈ edges, ∃ x y, jsSplit e = [x, y]) :
    countNeighbor (buildGraph edges) a (some b) =
        edges.countP (fun e => decide (jsSplit e = [a, b])) +
          edges.countP (fun e => decide (jsSplit e = [b, a])) ∧
      countNeighbor (buildGraph edges) b (some a) =
        edges.countP (fun e => decide (jsSplit e = [a, b])) +
          edges.countP (fun e => decide (jsSplit e = [b, a])) := by
  constructor
  · rw [countNeighbor_buildGraph, sum_edgeContrib a b edges hwf]
  · rw [countNeighbor_buildGraph, sum_edgeContrib b a edges hwf]
    omega

theorem buildGraph_duplicates_witness :
    countNeighbor (buildGraph ["A-B", "A-B", "B-A"]) "A" (some "B") =
        (["A-B", "A-B", "B-A"].countP
          (fun e => decide (jsSplit e = ["A", "B"])) +
          ["A-B", "A-B", "B-A"].countP
            (fun e => decide (jsSplit e = ["B", "A"]))) ∧
      countNeighbor (buildGraph ["A-B", "A-B", "B-A"]) "B" (some "A") =
        (["A-B", "A-B", "B-A"].countP
          (fun e => decide (jsSplit e = ["A", "B"])) +
          ["A-B", "A-B", "B-A"].countP
            (fun e => decide (jsSplit e = ["B", "A"]))) :=
  buildGraph_duplicates ["A-B", "A-B", "B-A"] "A" "B"
    (fun e he => by
      simp only [List.mem_cons, List.not_mem_nil, or_false] at he
      rcases he with rfl | rfl | rfl
      · exact ⟨"A", "B", by decide⟩
      · exact ⟨"A", "B", by decide⟩
      · exact ⟨"B", "A", by decide⟩)

theorem runRobotAux_reports {μ : Type} (robot : VillageState → μ → RobotAction μ) :
    ∀ (fuel : Nat) (s : VillageState) (m : μ) (turn t : Nat) (tr : List String),
      runRobotAux robot fuel s m turn = some (t, tr) → t = turn + tr.length := by
  intro fuel
  induction fuel with
  | zero =>
    intro s m turn t tr h
    simp [runRobotAux] at h
  | succ n ih =>
    intro s m turn t tr h
    unfold runRobotAux at h
    by_cases hp : s.parcels = []
    · rw [if_pos hp] at h
      injection h with h2
      injection h2 with h3 h4
      subst h3
      subst h4
      simp
    · rw [if_neg hp] at h
      dsimp only at h
      cases hmv : VillageState.move roadGraph s (robot s m).direction with
      | none => rw [hmv] at h; cases h
      | some s2 =>
        rw [hmv] at h
        rw [Option.map_eq_some'] at h
        obtain ⟨⟨t2, tr2⟩, hrec, heq⟩ := h
        have hrep := ih s2 (robot s m).memory (turn + 1) t2 tr2 hrec
        injection heq with ha hb
        subst ha
        subst hb
        simp [hrep]
        omega

/-- C6: whenever the driver terminates, the reported turn count equals the
number of moves actually taken (the length of the per-iteration trace);
in particular on a state with no parcels it reports completion at turn 0
with an empty trace, never invoking the strategy. -/
theorem runRobot_turn_report {μ : Type} (fuel : Nat)
    (robot : VillageState → μ → RobotAction μ) (s : VillageState) (m : μ) :
    (∀ t tr, runRobot fuel robot s m = some (t, tr) → t = tr.length) ∧
    (s.parcels = [] → 1 ≤ fuel → runRobot fuel robot s m = some (0, [])) := by
  constructor
  · intro t tr h
    have hrep := runRobotAux_reports robot fuel s m 0 t tr h
    simpa using hrep
  · intro hp hf
    obtain ⟨n, rfl⟩ : ∃ n, fuel = n + 1 := ⟨fuel - 1, by omega⟩
    unfold runRobot runRobotAux
    rw [if_pos hp]

theorem runRobot_turn_report_witness :
    runRobot 1 (fun _ _ => RobotAction.mk "Post Office" ())
      ⟨"Post Office", []⟩ () = some (0, []) :=
  (runRobot_turn_report 1 (fun _ _ => RobotAction.mk "Post Office" ())
    ⟨"Post Office", []⟩ ()).2 rfl (by decide)

/-- C7 counterexample: `randomRobot` is not a pure function of state and
memory — with the same state (and the memory ignored by the source), two
different ambient `Math.random()` draws produce two different actions. -/
theorem randomRobot_impure_cex :
    randomRobot 0 ⟨"Post Office", []⟩ ≠
      randomRobot (1 / 2) ⟨"Post Office", []⟩ := by
  have h : lookupGraph roadGraph (VillageState.mk "Post Office" []).place =
      some [some "Alice's House", some "Marketplace"] := by decide
  have e1 : randomRobot 0 ⟨"Post Office", []⟩ = some (some "Alice's House") := by
    unfold randomRobot
    rw [h]
    dsimp only
    unfold randomPick
    norm_num
  have e2 : randomRobot (1 / 2) ⟨"Post Office", []⟩ =
      some (some "Marketplace") := by
    unfold randomRobot
    rw [h]
    dsimp only
    unfold randomPick
    norm_num
  rw [e1, e2]
  simp

/-- C7 amended: the provided random strategy is a pure function of the
`Math.random()` draw and the state (the memory argument plays no role),
and for any draw in `[0, 1)` it selects an element of the current place's
neighbor list. -/
theorem randomRobot_depends_on_draw (rand : ℚ) (s : VillageState)
    (ns : List (Option String)) (h0 : 0 ≤ rand) (h1 : rand < 1)
    (hg : lookupGraph roadGraph s.place = some ns) (hne : ns ≠ []) :
    ∃ v, randomRobot rand s = some v ∧ v ∈ ns := by
  have hlen : 0 < ns.length := List.length_pos.mpr hne
  have hflt : Int.floor (rand * (ns.length : ℚ)) < (ns.length : ℤ) := by
    rw [Int.floor_lt]
    push_cast
    calc rand * (ns.length : ℚ) < 1 * (ns.length : ℚ) := by
          apply mul_lt_mul_of_pos_right h1
          exact_mod_cast hlen
      _ = (ns.length : ℚ) := one_mul _
  have hidxlt : (Int.floor (rand * (ns.length : ℚ))).toNat < ns.length :=
    (Int.toNat_lt' (Nat.pos_iff_ne_zero.mp hlen)).mpr hflt
  refine ⟨ns.get ⟨(Int.floor (rand * (ns.length : ℚ))).toNat, hidxlt⟩, ?_,
    List.get_mem ns _ hidxlt⟩
  unfold randomRobot
  rw [hg]
  dsimp only
  unfold randomPick
  rw [List.get?_eq_get hidxlt]
  rfl

theorem randomRobot_depends_on_draw_witness :
    ∃ v, randomRobot 0 ⟨"Post Office", []⟩ = some v ∧
      v ∈ [some "Alice's House", some "Marketplace"] :=
  randomRobot_depends_on_draw 0 ⟨"Post Office", []⟩
    [some "Alice's House", some "Marketplace"] (by norm_num) (by norm_num)
    (by decide) (by decide)
